import Mathlib

/-!
Verification of the object tasks module (`src/05-objects-tasks.js`).

The development shallowly embeds the source file:

* `Rectangle` builds a plain record with a `getArea` accessor that multiplies
  the record's current `width` and `height` fields.
* the CSS selector builder is a record of optional string fields
  (`_element`, `_id`, `_class`, `_attr`, `_pseudoClass`, `_pseudoElement`);
  each setter of the source's `methodsMap` becomes a function from a
  `Selector` and a token to the updated `Selector` paired with the error the
  JavaScript code would throw (`none` when no throw happens).  The JavaScript
  statement order is preserved: all checks are evaluated before the single
  field assignment.  Property lookups go through `hasOwnProperty`, which
  receives the property NAME as a string, so the source's misspelt
  `'_pseudo-element'` key (which is never an own property of any builder)
  is reproduced exactly.
* `getJSON` / `fromJSON` delegate to the platform's `JSON.stringify` /
  `JSON.parse`; those builtins are modelled further below on a `Json` value
  type.
-/

/-! ## Rectangle (source lines 23-31) -/

/-- The record returned by the source's `Rectangle` constructor: two data
fields and a derived-area accessor.  JavaScript numbers are modelled as
integers. -/
structure RectangleObj where
  width : Int
  height : Int
deriving DecidableEq

/-- Source: `function Rectangle(width, height) { return { width, height, getArea() {...} }; }`. -/
def Rectangle (width height : Int) : RectangleObj :=
  { width := width, height := height }

/-- Source: `getArea() { return this.width * this.height; }` — reads the
record's current fields at call time; nothing is cached. -/
def RectangleObj.getArea (r : RectangleObj) : Int :=
  r.width * r.height

/-! ## The selector builder state (source lines 119-205) -/

/-- The two error objects of the source.  `myError` is thrown on a duplicate
single-occurrence category (the spec's `DuplicateCategoryError`), `myError2`
on an out-of-order setter call (the spec's `OutOfOrderError`). -/
inductive BuilderError where
  | myError
  | myError2
deriving DecidableEq

/-- Spec name for `myError` (source lines 119-120). -/
def DuplicateCategoryError : BuilderError := BuilderError.myError

/-- Spec name for `myError2` (source lines 121-123). -/
def OutOfOrderError : BuilderError := BuilderError.myError2

/-- The own data properties a builder instance can carry.  A field is `none`
when the JavaScript object does not have the corresponding own property. -/
structure Selector where
  _element : Option String
  _id : Option String
  _class : Option String
  _attr : Option String
  _pseudoClass : Option String
  _pseudoElement : Option String
deriving DecidableEq

/-- A fresh builder instance (`new cssSelectorBuilder()`): no own data
properties. -/
def emptySelector : Selector :=
  { _element := none, _id := none, _class := none, _attr := none,
    _pseudoClass := none, _pseudoElement := none }

/-- JavaScript `obj.hasOwnProperty(name)` specialised to builder states.
Only the six underscore-prefixed field names can ever be own properties;
every other string — in particular the source's misspelt
`'_pseudo-element'` — answers `false`. -/
def hasOwnProperty (s : Selector) (prop : String) : Bool :=
  match prop with
  | "_element" => s._element.isSome
  | "_id" => s._id.isSome
  | "_class" => s._class.isSome
  | "_attr" => s._attr.isSome
  | "_pseudoClass" => s._pseudoClass.isSome
  | "_pseudoElement" => s._pseudoElement.isSome
  | _ => false

/-- Source lines 125-128: `checkProps(obj, props)` throws `myError2` when
`obj` owns any of the listed properties.  The result is `some` the thrown
error, `none` when the check passes. -/
def checkProps (obj : Selector) (props : List String) : Option BuilderError :=
  if props.any (fun el => hasOwnProperty obj el) then some BuilderError.myError2 else none

/-- Truthiness of a possibly-absent JavaScript string: `undefined` and the
empty string are falsy, every other string is truthy. -/
def truthy : Option String → Bool
  | none => false
  | some s => s.length != 0

namespace methodsMap

/-- Source lines 131-137: the `element` setter.  Duplicate check first, then
the order check, then the assignment `this._element = value`. -/
def element (s : Selector) (value : String) : Selector × Option BuilderError :=
  if hasOwnProperty s ("_element") then (s, some BuilderError.myError)
  else
    match checkProps s ["_id", "_class", "_attr", "_pseudoClass", "_pseudoElement"] with
    | some e => (s, some e)
    | none => ({ s with _element := some value }, none)

/-- Source lines 138-144: the `id` setter; stores `'#' + value`. -/
def id (s : Selector) (value : String) : Selector × Option BuilderError :=
  if hasOwnProperty s ("_id") then (s, some BuilderError.myError)
  else
    match checkProps s ["_class", "_attr", "_pseudoClass", "_pseudoElement"] with
    | some e => (s, some e)
    | none => ({ s with _id := some ("#" ++ value) }, none)

/-- Source lines 145-149: the `attr` setter.  The order check lists
`'_pseudoClass'` and the misspelt `'_pseudo-element'`; the appended clause is
`'[' + value + ']'`. -/
def attr (s : Selector) (value : String) : Selector × Option BuilderError :=
  match checkProps s ["_pseudoClass", "_pseudo-element"] with
  | some e => (s, some e)
  | none =>
    ({ s with _attr := some (if truthy s._attr
        then s._attr.getD ("") ++ "[" ++ value ++ "]"
        else "[" ++ value ++ "]") }, none)

/-- Source lines 151-155: the `class` setter; appends `'.' + value`. -/
def «class» (s : Selector) (value : String) : Selector × Option BuilderError :=
  match checkProps s ["_attr", "_pseudoClass", "_pseudoElement"] with
  | some e => (s, some e)
  | none =>
    ({ s with _class := some (if truthy s._class
        then s._class.getD ("") ++ "." ++ value
        else "." ++ value) }, none)

/-- Source lines 156-160: the `pseudoClass` setter; appends `':' + value`. -/
def pseudoClass (s : Selector) (value : String) : Selector × Option BuilderError :=
  match checkProps s ["_pseudoElement"] with
  | some e => (s, some e)
  | none =>
    ({ s with _pseudoClass := some (if truthy s._pseudoClass
        then s._pseudoClass.getD ("") ++ ":" ++ value
        else ":" ++ value) }, none)

/-- Source lines 161-166: the `pseudoElement` setter.  Only a duplicate
check; stores `'::' + value`. -/
def pseudoElement (s : Selector) (value : String) : Selector × Option BuilderError :=
  if hasOwnProperty s ("_pseudoElement") then (s, some BuilderError.myError)
  else ({ s with _pseudoElement := some ("::" ++ value) }, none)

end methodsMap

/-- One chained setter invocation on a builder. -/
inductive Call where
  | element (v : String)
  | id (v : String)
  | «class» (v : String)
  | attr (v : String)
  | pseudoClass (v : String)
  | pseudoElement (v : String)
deriving DecidableEq

/-- Dispatch a call to the corresponding `methodsMap` setter, as the
per-instance wrappers installed by the `cssSelectorBuilder` constructor do. -/
def applyCall (s : Selector) (c : Call) : Selector × Option BuilderError :=
  match c with
  | Call.element v => methodsMap.element s v
  | Call.id v => methodsMap.id s v
  | Call.«class» v => methodsMap.«class» s v
  | Call.attr v => methodsMap.attr s v
  | Call.pseudoClass v => methodsMap.pseudoClass s v
  | Call.pseudoElement v => methodsMap.pseudoElement s v

/-- A chain of setter calls on one builder.  The chain stops at the first
call that throws, exactly as a JavaScript method chain would. -/
def runCalls (s : Selector) (calls : List Call) : Selector × Option BuilderError :=
  match calls with
  | [] => (s, none)
  | c :: rest =>
    match applyCall s c with
    | (s1, none) => runCalls s1 rest
    | (s1, some e) => (s1, some e)

namespace cssSelectorBuilder

/-- Source lines 180-194: `stringify()` concatenates the six fields in the
fixed category order, each absent field contributing `''`. -/
def stringify (s : Selector) : String :=
  s._element.getD ("") ++ s._id.getD ("") ++ s._class.getD ("") ++ s._attr.getD ("")
    ++ s._pseudoClass.getD ("") ++ s._pseudoElement.getD ("")

end cssSelectorBuilder

/-- A renderable node: either a leaf builder or the object returned by
`combine`, which closes over its two children and the combinator token. -/
inductive Renderable where
  | leaf (s : Selector)
  | node (left : Renderable) (combinator : String) (right : Renderable)

/-- Rendering a `Renderable`: leaves render through the builder's
`stringify`; a combined node renders as the source's template literal
`` `${selector1.stringify()} ${combinator} ${selector2.stringify()}` ``. -/
def Renderable.render : Renderable → String
  | Renderable.leaf s => cssSelectorBuilder.stringify s
  | Renderable.node l c r => Renderable.render l ++ " " ++ c ++ " " ++ Renderable.render r

namespace cssSelectorBuilder

/-- Source lines 203-205: `combine` builds a fresh object holding the two
selectors and the combinator; it mutates neither argument (in this pure
embedding the arguments are taken by value and returned inside the new
node). -/
def combine (selector1 : Renderable) (combinator : String) (selector2 : Renderable) : Renderable :=
  Renderable.node selector1 combinator selector2

end cssSelectorBuilder

/-! ## An abstract view of the builder used to state rendering claims

The abstract state keeps the raw tokens per category; `concretize` maps it to
the stored-string representation the source accumulates.  Every builder
reachable by successful setter calls is the image of an abstract state, which
lets the rendering claims speak about prefixes and per-category grouping. -/

/-- Raw accepted tokens, grouped by category, insertion order preserved. -/
structure AbsSelector where
  element : Option String
  id : Option String
  classes : List String
  attrs : List String
  pseudoClasses : List String
  pseudoElement : Option String
deriving DecidableEq

/-- The abstract state of a fresh builder. -/
def absEmpty : AbsSelector :=
  { element := none, id := none, classes := [], attrs := [],
    pseudoClasses := [], pseudoElement := none }

/-- The data effect of one accepted call on the abstract state. -/
def absApply (a : AbsSelector) (c : Call) : AbsSelector :=
  match c with
  | Call.element v => { a with element := some v }
  | Call.id v => { a with id := some v }
  | Call.«class» v => { a with classes := a.classes ++ [v] }
  | Call.attr v => { a with attrs := a.attrs ++ [v] }
  | Call.pseudoClass v => { a with pseudoClasses := a.pseudoClasses ++ [v] }
  | Call.pseudoElement v => { a with pseudoElement := some v }

/-- The data effect of a call list on the abstract state. -/
def absRun (a : AbsSelector) : List Call → AbsSelector
  | [] => a
  | c :: rest => absRun (absApply a c) rest

/-- Concatenation of a token list with each token run through `wrap`. -/
def catRender (wrap : String → String) (l : List String) : String :=
  l.foldl (fun acc c => acc ++ wrap c) ""

/-- Token list rendered to an optional stored string: `none` when no token
of the category was ever accepted. -/
def catRenderOpt (wrap : String → String) (l : List String) : Option String :=
  match l with
  | [] => none
  | _ => some (catRender wrap l)

/-- The prefix carried by each class token. -/
def wrapClass (c : String) : String := "." ++ c

/-- The brackets carried by each attribute clause. -/
def wrapAttr (c : String) : String := "[" ++ c ++ "]"

/-- The prefix carried by each pseudo-class token. -/
def wrapPseudoClass (c : String) : String := ":" ++ c

/-- The stored-string builder state an abstract state denotes. -/
def concretize (a : AbsSelector) : Selector :=
  { _element := a.element
  , _id := a.id.map (fun v => "#" ++ v)
  , _class := catRenderOpt wrapClass a.classes
  , _attr := catRenderOpt wrapAttr a.attrs
  , _pseudoClass := catRenderOpt wrapPseudoClass a.pseudoClasses
  , _pseudoElement := a.pseudoElement.map (fun v => "::" ++ v) }

/-- Rendering straight from the abstract state: the element token bare, the
id prefixed with `#`, each class with `.`, each attribute in `[...]`, each
pseudo-class with `:`, the pseudo-element with `::`, all concatenated in the
fixed category order with no separators. -/
def absStringify (a : AbsSelector) : String :=
  a.element.getD ("") ++ (a.id.map (fun v => "#" ++ v)).getD ("")
    ++ catRender wrapClass a.classes ++ catRender wrapAttr a.attrs
    ++ catRender wrapPseudoClass a.pseudoClasses
    ++ (a.pseudoElement.map (fun v => "::" ++ v)).getD ("")

/-- Tokens of the `element` calls of a chain, in order. -/
def elementTokens (calls : List Call) : List String :=
  calls.filterMap (fun c => match c with | Call.element v => some v | _ => none)

/-- Tokens of the `id` calls of a chain, in order. -/
def idTokens (calls : List Call) : List String :=
  calls.filterMap (fun c => match c with | Call.id v => some v | _ => none)

/-- Tokens of the `class` calls of a chain, in order. -/
def classTokens (calls : List Call) : List String :=
  calls.filterMap (fun c => match c with | Call.«class» v => some v | _ => none)

/-- Tokens of the `attr` calls of a chain, in order. -/
def attrTokens (calls : List Call) : List String :=
  calls.filterMap (fun c => match c with | Call.attr v => some v | _ => none)

/-- Tokens of the `pseudoClass` calls of a chain, in order. -/
def pseudoClassTokens (calls : List Call) : List String :=
  calls.filterMap (fun c => match c with | Call.pseudoClass v => some v | _ => none)

/-- Tokens of the `pseudoElement` calls of a chain, in order. -/
def pseudoElementTokens (calls : List Call) : List String :=
  calls.filterMap (fun c => match c with | Call.pseudoElement v => some v | _ => none)

/-- Last token of a list, or the supplied default when the list is empty
(folding a set-once category over its tokens). -/
def setLast (l : List String) (d : Option String) : Option String :=
  l.foldl (fun _ v => some v) d

/-! ## A model of the JSON platform builtins (source lines 44-46 and 60-62)

`getJSON` delegates to `JSON.stringify` and `fromJSON` to `JSON.parse` plus
`Object.create`.  The two builtins are modelled here over a `Json` value
type.  Model choices, noted once: JavaScript numbers are modelled as
integers (`JSON.stringify` prints integral numbers in plain decimal);
`JSON.parse` is modelled on the whitespace-free texts that `JSON.stringify`
emits; `\uXXXX` escapes naming UTF-16 surrogate halves are rejected because
a Lean `Char` is a Unicode scalar. -/

/-- JSON-representable data: numbers, strings, booleans, null, arrays and
plain objects, with object key order significant (insertion order). -/
inductive Json where
  | null
  | bool (b : Bool)
  | num (n : Int)
  | str (s : String)
  | arr (elems : List Json)
  | obj (fields : List (String × Json))

/-- Decimal digit test on the character's code point. -/
def isDigitC (c : Char) : Bool := 48 ≤ c.toNat && c.toNat ≤ 57

/-- The decimal digit character for a value below ten. -/
def digitChar (n : Nat) : Char := Char.ofNat (48 + n)

/-- Lower-case hexadecimal digit character for a value below sixteen. -/
def hexDigitChar (n : Nat) : Char :=
  if n < 10 then Char.ofNat (48 + n) else Char.ofNat (87 + n)

/-- Hexadecimal digit test (both cases). -/
def isHexDigitC (c : Char) : Bool :=
  (48 ≤ c.toNat && c.toNat ≤ 57) || (97 ≤ c.toNat && c.toNat ≤ 102)
    || (65 ≤ c.toNat && c.toNat ≤ 70)

/-- Value of a hexadecimal digit character. -/
def hexVal (c : Char) : Nat :=
  if 48 ≤ c.toNat && c.toNat ≤ 57 then c.toNat - 48
  else if 97 ≤ c.toNat && c.toNat ≤ 102 then c.toNat - 87
  else c.toNat - 55

/-- Most-significant-first decimal digits of `n`, prepended to `acc`; the
fuel argument only bounds the recursion and any fuel at least `n` is
enough. -/
def natDigitsAux : Nat → Nat → List Char → List Char
  | 0, _, acc => acc
  | fuel + 1, n, acc =>
    if n = 0 then acc else natDigitsAux fuel (n / 10) (digitChar (n % 10) :: acc)

/-- Decimal digits of a natural number, `'0'` included for zero. -/
def natDigits (n : Nat) : List Char :=
  if n = 0 then ['0'] else natDigitsAux n n []

/-- Decimal representation of an integer, as `JSON.stringify` prints an
integral number. -/
def intChars (n : Int) : List Char :=
  if n < 0 then '-' :: natDigits n.natAbs else natDigits n.natAbs

/-- How `JSON.stringify` escapes one string character: quote and backslash
get a backslash escape, the five named control characters their short forms,
every other control character a `\u00XX` escape, and all remaining
characters stand for themselves. -/
def escapeChar (c : Char) : List Char :=
  if c = '"' then ['\\', '"']
  else if c = '\\' then ['\\', '\\']
  else if c.toNat = 8 then ['\\', 'b']
  else if c.toNat = 12 then ['\\', 'f']
  else if c.toNat = 10 then ['\\', 'n']
  else if c.toNat = 13 then ['\\', 'r']
  else if c.toNat = 9 then ['\\', 't']
  else if c.toNat < 32 then
    ['\\', 'u', '0', '0', hexDigitChar (c.toNat / 16), hexDigitChar (c.toNat % 16)]
  else [c]

/-- Escape every character of a string body. -/
def escapeList : List Char → List Char
  | [] => []
  | c :: l => escapeChar c ++ escapeList l

/-- A JSON string literal: the escaped body between double quotes. -/
def quoteChars (s : String) : List Char := '"' :: (escapeList s.data ++ ['"'])

mutual

/-- The text `JSON.stringify` produces for a value: no whitespace, object
keys quoted like strings, members in stored order. -/
def printJson : Json → List Char
  | Json.null => ['n', 'u', 'l', 'l']
  | Json.bool true => ['t', 'r', 'u', 'e']
  | Json.bool false => ['f', 'a', 'l', 's', 'e']
  | Json.num n => intChars n
  | Json.str s => quoteChars s
  | Json.arr [] => ['[', ']']
  | Json.arr (x :: xs) => '[' :: ((printJson x ++ printElems xs) ++ [']'])
  | Json.obj [] => ['\x7b', '\x7d']
  | Json.obj (f :: fs) => '\x7b' :: ((printField f ++ printFields fs) ++ ['\x7d'])

/-- One object member: quoted key, colon, value. -/
def printField : String × Json → List Char
  | (k, v) => quoteChars k ++ (':' :: printJson v)

/-- Remaining array elements, each preceded by a comma. -/
def printElems : List Json → List Char
  | [] => []
  | x :: xs => ',' :: (printJson x ++ printElems xs)

/-- Remaining object members, each preceded by a comma. -/
def printFields : List (String × Json) → List Char
  | [] => []
  | f :: fs => ',' :: (printField f ++ printFields fs)

end

/-- No string occurs twice in the list. -/
def nodupKeys : List String → Bool
  | [] => true
  | k :: rest => !(rest.contains k) && nodupKeys rest

mutual

/-- A `Json` value denotes a real JavaScript value exactly when no object
node carries a duplicate key. -/
def Json.wf : Json → Bool
  | Json.null => true
  | Json.bool _ => true
  | Json.num _ => true
  | Json.str _ => true
  | Json.arr xs => wfElems xs
  | Json.obj fs => nodupKeys (fs.map Prod.fst) && wfFields fs

/-- Well-formedness of every element of an array. -/
def wfElems : List Json → Bool
  | [] => true
  | x :: xs => Json.wf x && wfElems xs

/-- Well-formedness of every member value of an object. -/
def wfFields : List (String × Json) → Bool
  | [] => true
  | f :: fs => Json.wf f.2 && wfFields fs

end

/-- Munch a run of decimal digits, accumulating their value left to right;
stops at the first non-digit. -/
def parseDigits : List Char → Nat → Nat × List Char
  | c :: rest, acc =>
    if isDigitC c then parseDigits rest (acc * 10 + (c.toNat - 48)) else (acc, c :: rest)
  | [], acc => (acc, [])

/-- Parse a JSON string body after the opening quote: `acc` holds the
decoded characters in reverse.  Handles the standard single-character
escapes, `\uXXXX` escapes for Unicode scalars, and rejects raw control
characters, exactly as `JSON.parse` does (surrogate-half escapes are
rejected, see the model note above). -/
def parseStringBody : List Char → List Char → Option (String × List Char)
  | acc, c :: rest =>
    if c = '"' then some (String.mk acc.reverse, rest)
    else if c = '\\' then
      match rest with
      | [] => none
      | e :: rest1 =>
        if e = '"' then parseStringBody ('"' :: acc) rest1
        else if e = '\\' then parseStringBody ('\\' :: acc) rest1
        else if e = '/' then parseStringBody ('/' :: acc) rest1
        else if e = 'b' then parseStringBody (Char.ofNat 8 :: acc) rest1
        else if e = 'f' then parseStringBody (Char.ofNat 12 :: acc) rest1
        else if e = 'n' then parseStringBody (Char.ofNat 10 :: acc) rest1
        else if e = 'r' then parseStringBody (Char.ofNat 13 :: acc) rest1
        else if e = 't' then parseStringBody (Char.ofNat 9 :: acc) rest1
        else if e = 'u' then
          match rest1 with
          | h1 :: h2 :: h3 :: h4 :: rest2 =>
            if isHexDigitC h1 && isHexDigitC h2 && isHexDigitC h3 && isHexDigitC h4 then
              if ((hexVal h1 * 16 + hexVal h2) * 16 + hexVal h3) * 16 + hexVal h4 < 55296 then
                parseStringBody
                  (Char.ofNat (((hexVal h1 * 16 + hexVal h2) * 16 + hexVal h3) * 16 + hexVal h4)
                    :: acc) rest2
              else if 57343 < ((hexVal h1 * 16 + hexVal h2) * 16 + hexVal h3) * 16 + hexVal h4 then
                parseStringBody
                  (Char.ofNat (((hexVal h1 * 16 + hexVal h2) * 16 + hexVal h3) * 16 + hexVal h4)
                    :: acc) rest2
              else none
            else none
          | _ => none
        else none
    else if c.toNat < 32 then none
    else parseStringBody (c :: acc) rest
  | _, [] => none

/-- Tail of the literal `null` after its leading `n`. -/
def expectNull : List Char → Option (Json × List Char)
  | 'u' :: 'l' :: 'l' :: rest1 => some (Json.null, rest1)
  | _ => none

/-- Tail of the literal `true` after its leading `t`. -/
def expectTrue : List Char → Option (Json × List Char)
  | 'r' :: 'u' :: 'e' :: rest1 => some (Json.bool true, rest1)
  | _ => none

/-- Tail of the literal `false` after its leading `f`. -/
def expectFalse : List Char → Option (Json × List Char)
  | 'a' :: 'l' :: 's' :: 'e' :: rest1 => some (Json.bool false, rest1)
  | _ => none

/-- A string value after its opening quote. -/
def parseStrAt (rest : List Char) : Option (Json × List Char) :=
  match parseStringBody [] rest with
  | some (s, rest1) => some (Json.str s, rest1)
  | none => none

/-- A negative number after its leading minus sign: at least one digit must
follow. -/
def parseNegNum : List Char → Option (Json × List Char)
  | [] => none
  | d :: rest1 =>
    if isDigitC d then
      match parseDigits (d :: rest1) 0 with
      | (n, rest2) => some (Json.num (-(n : Int)), rest2)
    else none

/-- A non-negative number starting at digit `c`. -/
def parsePosNum (c : Char) (rest : List Char) : Option (Json × List Char) :=
  match parseDigits (c :: rest) 0 with
  | (n, rest2) => some (Json.num ((n : Int)), rest2)

/-- The remainder of an array after its opening bracket; `pv` parses one
value (it is instantiated with the parser at the next smaller fuel).  After
the first element and a comma, the remaining elements are parsed as the
array they themselves form. -/
def parseArrTail (pv : List Char → Option (Json × List Char)) :
    List Char → Option (Json × List Char)
  | [] => none
  | d :: rest1 =>
    if d = ']' then some (Json.arr [], rest1)
    else
      match pv (d :: rest1) with
      | none => none
      | some (v, rest2) =>
        match rest2 with
        | [] => none
        | d2 :: rest3 =>
          if d2 = ',' then
            match pv ('[' :: rest3) with
            | some (Json.arr xs, rest4) => some (Json.arr (v :: xs), rest4)
            | _ => none
          else if d2 = ']' then some (Json.arr [v], rest3)
          else none

/-- The remainder of an object after its opening brace: quoted key, colon,
value, then either a comma (and the remaining members parsed as the object
they form) or the closing brace. -/
def parseObjTail (pv : List Char → Option (Json × List Char)) :
    List Char → Option (Json × List Char)
  | [] => none
  | d :: rest1 =>
    if d = '\x7d' then some (Json.obj [], rest1)
    else if d = '"' then
      match parseStringBody [] rest1 with
      | none => none
      | some (k, rest2) =>
        match rest2 with
        | [] => none
        | d2 :: rest3 =>
          if d2 = ':' then
            match pv rest3 with
            | none => none
            | some (v, rest4) =>
              match rest4 with
              | [] => none
              | d3 :: rest5 =>
                if d3 = ',' then
                  match pv ('\x7b' :: rest5) with
                  | some (Json.obj fs, rest6) => some (Json.obj ((k, v) :: fs), rest6)
                  | _ => none
                else if d3 = '\x7d' then some (Json.obj [(k, v)], rest5)
                else none
          else none
    else none

/-- One step of the `JSON.parse` grammar on whitespace-free text: dispatch
on the first character and parse the value starting there, returning it with
the unconsumed suffix.  The fuel argument only bounds the recursion depth of
nested arrays and objects; any fuel larger than the input length is
enough. -/
def parseV : Nat → List Char → Option (Json × List Char)
  | 0, _ => none
  | fuel + 1, input =>
    match input with
    | [] => none
    | c :: rest =>
      if c = 'n' then expectNull rest
      else if c = 't' then expectTrue rest
      else if c = 'f' then expectFalse rest
      else if c = '"' then parseStrAt rest
      else if c = '[' then parseArrTail (parseV fuel) rest
      else if c = '\x7b' then parseObjTail (parseV fuel) rest
      else if c = '-' then parseNegNum rest
      else if isDigitC c then parsePosNum c rest
      else none

/-- The model of `JSON.parse`: the whole text must be one value. -/
def parseJson (text : String) : Option Json :=
  match parseV (text.data.length + 1) text.data with
  | some (v, []) => some v
  | _ => none

/-- Source lines 44-46: `getJSON(obj)` is `JSON.stringify(obj)`. -/
def getJSON (obj : Json) : String := String.mk (printJson obj)

/-- The object `Object.create(proto, descriptors)` yields: the supplied
prototype (the capability set) plus own data fields. -/
structure JsObject (Proto : Type) where
  proto : Proto
  fields : List (String × Json)

/-- Source lines 60-62: `fromJSON(proto, json)` parses `json` and installs
the parsed object's own enumerable fields on a fresh object whose prototype
is `proto`.  The model covers object-valued JSON texts, the case the
surrounding code exercises (`fromJSON(Circle.prototype, '...radius...')`);
for other parse results it returns `none`. -/
def fromJSON (Proto : Type) (proto : Proto) (json : String) : Option (JsObject Proto) :=
  match parseJson json with
  | some (Json.obj fields) => some { proto := proto, fields := fields }
  | _ => none

/-- Characters that may legitimately follow a complete JSON value in a
larger whitespace-free JSON text: nothing, or a comma or closing bracket
or closing brace. -/
def delimited : List Char → Bool
  | [] => true
  | c :: _ => c = ',' || c = ']' || c = '\x7d'

/-- Value of a most-significant-first digit run, folded onto `acc` the way
`parseDigits` accumulates. -/
def valOfDigits (l : List Char) (acc : Nat) : Nat :=
  l.foldl (fun a c => a * 10 + (c.toNat - 48)) acc

/-! ## Helper lemmas for the selector builder -/

theorem hasOwn_element (s : Selector) : hasOwnProperty s ("_element") = s._element.isSome := rfl

theorem hasOwn_id (s : Selector) : hasOwnProperty s ("_id") = s._id.isSome := rfl

theorem hasOwn_class (s : Selector) : hasOwnProperty s ("_class") = s._class.isSome := rfl

theorem hasOwn_attr (s : Selector) : hasOwnProperty s ("_attr") = s._attr.isSome := rfl

theorem hasOwn_pseudoClass (s : Selector) :
    hasOwnProperty s ("_pseudoClass") = s._pseudoClass.isSome := rfl

theorem hasOwn_pseudoElement (s : Selector) :
    hasOwnProperty s ("_pseudoElement") = s._pseudoElement.isSome := rfl

theorem hasOwn_typo (s : Selector) : hasOwnProperty s ("_pseudo-element") = false := rfl

theorem catRender_nil (w : String → String) : catRender w [] = "" := rfl

theorem catRender_append (w : String → String) (l : List String) (v : String) :
    catRender w (l ++ [v]) = catRender w l ++ w v := by
  simp [catRender, List.foldl_append]

theorem catRender_init_length (w : String → String) (l : List String) (init : String) :
    init.length ≤ (l.foldl (fun acc c => acc ++ w c) init).length := by
  induction l generalizing init with
  | nil => exact Nat.le_refl _
  | cons c rest ih =>
    have h1 : init.length ≤ (init ++ w c).length := by
      rw [String.length_append]; omega
    exact h1.trans (ih (init ++ w c))

theorem catRender_length_pos (w : String → String) (hw : ∀ c, 1 ≤ (w c).length)
    (c : String) (rest : List String) : 1 ≤ (catRender w (c :: rest)).length := by
  unfold catRender
  simp only [List.foldl_cons]
  refine Nat.le_trans ?_ (catRender_init_length w rest ("" ++ w c))
  have h0 : ("" ++ w c).length = (w c).length := by
    rw [String.length_append]
    have : ("" : String).length = 0 := rfl
    omega
  rw [h0]
  exact hw c

theorem wrapClass_length (c : String) : 1 ≤ (wrapClass c).length := by
  unfold wrapClass
  rw [String.length_append]
  have : ("." : String).length = 1 := rfl
  omega

theorem wrapAttr_length (c : String) : 1 ≤ (wrapAttr c).length := by
  unfold wrapAttr
  rw [String.length_append, String.length_append]
  have : ("[" : String).length = 1 := rfl
  omega

theorem wrapPseudoClass_length (c : String) : 1 ≤ (wrapPseudoClass c).length := by
  unfold wrapPseudoClass
  rw [String.length_append]
  have : (":" : String).length = 1 := rfl
  omega

theorem truthy_of_length (s : String) (h : 1 ≤ s.length) : truthy (some s) = true := by
  simp [truthy]
  omega

theorem getD_catRenderOpt (w : String → String) (l : List String) :
    (catRenderOpt w l).getD ("") = catRender w l := by
  cases l <;> rfl

theorem stringify_concretize (a : AbsSelector) :
    cssSelectorBuilder.stringify (concretize a) = absStringify a := by
  unfold cssSelectorBuilder.stringify absStringify concretize
  simp only [getD_catRenderOpt]

theorem catRender_snoc_class (x v : String) (rest : List String) :
    catRender wrapClass (x :: (rest ++ [v]))
      = catRender wrapClass (x :: rest) ++ "." ++ v := by
  rw [← List.cons_append, catRender_append]
  simp [wrapClass, String.append_assoc]

theorem catRender_snoc_attr (x v : String) (rest : List String) :
    catRender wrapAttr (x :: (rest ++ [v]))
      = catRender wrapAttr (x :: rest) ++ "[" ++ v ++ "]" := by
  rw [← List.cons_append, catRender_append]
  simp [wrapAttr, String.append_assoc]

theorem catRender_snoc_pseudoClass (x v : String) (rest : List String) :
    catRender wrapPseudoClass (x :: (rest ++ [v]))
      = catRender wrapPseudoClass (x :: rest) ++ ":" ++ v := by
  rw [← List.cons_append, catRender_append]
  simp [wrapPseudoClass, String.append_assoc]

theorem applyCall_concretize (a : AbsSelector) (c : Call) (s1 : Selector)
    (h : applyCall (concretize a) c = (s1, none)) :
    s1 = concretize (absApply a c) := by
  cases c with
  | element v =>
    replace h : methodsMap.element (concretize a) v = (s1, none) := h
    unfold methodsMap.element at h
    by_cases h1 : hasOwnProperty (concretize a) ("_element")
    · simp [h1] at h
    · rw [if_neg h1] at h
      rcases h2 : checkProps (concretize a)
          ["_id", "_class", "_attr", "_pseudoClass", "_pseudoElement"] with _ | e
      · rw [h2] at h
        simp only [Prod.mk.injEq] at h
        rw [← h.1]
        rfl
      · rw [h2] at h
        simp at h
  | id v =>
    replace h : methodsMap.id (concretize a) v = (s1, none) := h
    unfold methodsMap.id at h
    by_cases h1 : hasOwnProperty (concretize a) ("_id")
    · simp [h1] at h
    · rw [if_neg h1] at h
      rcases h2 : checkProps (concretize a)
          ["_class", "_attr", "_pseudoClass", "_pseudoElement"] with _ | e
      · rw [h2] at h
        simp only [Prod.mk.injEq] at h
        rw [← h.1]
        rfl
      · rw [h2] at h
        simp at h
  | «class» v =>
    replace h : methodsMap.«class» (concretize a) v = (s1, none) := h
    unfold methodsMap.«class» at h
    rcases h2 : checkProps (concretize a) ["_attr", "_pseudoClass", "_pseudoElement"] with _ | e
    · rw [h2] at h
      simp only [Prod.mk.injEq] at h
      rw [← h.1]
      cases hcl : a.classes with
      | nil =>
        simp [concretize, absApply, hcl, catRenderOpt, truthy, catRender, wrapClass]
      | cons x rest =>
        have ht : truthy (some (catRender wrapClass (x :: rest))) = true :=
          truthy_of_length _ (catRender_length_pos wrapClass wrapClass_length x rest)
        simp [concretize, absApply, hcl, catRenderOpt, ht, catRender_snoc_class]
    · rw [h2] at h
      simp at h
  | attr v =>
    replace h : methodsMap.attr (concretize a) v = (s1, none) := h
    unfold methodsMap.attr at h
    rcases h2 : checkProps (concretize a) ["_pseudoClass", "_pseudo-element"] with _ | e
    · rw [h2] at h
      simp only [Prod.mk.injEq] at h
      rw [← h.1]
      cases hcl : a.attrs with
      | nil =>
        simp [concretize, absApply, hcl, catRenderOpt, truthy, catRender, wrapAttr]
      | cons x rest =>
        have ht : truthy (some (catRender wrapAttr (x :: rest))) = true :=
          truthy_of_length _ (catRender_length_pos wrapAttr wrapAttr_length x rest)
        simp [concretize, absApply, hcl, catRenderOpt, ht, catRender_snoc_attr]
    · rw [h2] at h
      simp at h
  | pseudoClass v =>
    replace h : methodsMap.pseudoClass (concretize a) v = (s1, none) := h
    unfold methodsMap.pseudoClass at h
    rcases h2 : checkProps (concretize a) ["_pseudoElement"] with _ | e
    · rw [h2] at h
      simp only [Prod.mk.injEq] at h
      rw [← h.1]
      cases hcl : a.pseudoClasses with
      | nil =>
        simp [concretize, absApply, hcl, catRenderOpt, truthy, catRender, wrapPseudoClass]
      | cons x rest =>
        have ht : truthy (some (catRender wrapPseudoClass (x :: rest))) = true :=
          truthy_of_length _
            (catRender_length_pos wrapPseudoClass wrapPseudoClass_length x rest)
        simp [concretize, absApply, hcl, catRenderOpt, ht, catRender_snoc_pseudoClass]
    · rw [h2] at h
      simp at h
  | pseudoElement v =>
    replace h : methodsMap.pseudoElement (concretize a) v = (s1, none) := h
    unfold methodsMap.pseudoElement at h
    by_cases h1 : hasOwnProperty (concretize a) ("_pseudoElement")
    · simp [h1] at h
    · rw [if_neg h1] at h
      simp only [Prod.mk.injEq] at h
      rw [← h.1]
      rfl

theorem runCalls_concretize (calls : List Call) : ∀ (a : AbsSelector) (s : Selector),
    runCalls (concretize a) calls = (s, none) → s = concretize (absRun a calls) := by
  induction calls with
  | nil =>
    intro a s h
    replace h : (concretize a, (none : Option BuilderError)) = (s, none) := h
    simp only [Prod.mk.injEq] at h
    exact h.1.symm
  | cons c rest ih =>
    intro a s h
    unfold runCalls at h
    rcases hac : applyCall (concretize a) c with ⟨s1, r⟩
    rw [hac] at h
    cases r with
    | some e => simp at h
    | none =>
      rw [applyCall_concretize a c s1 hac] at h
      exact ih (absApply a c) s h

theorem absRun_tokens (calls : List Call) : ∀ a : AbsSelector,
    absRun a calls =
      { element := setLast (elementTokens calls) a.element
      , id := setLast (idTokens calls) a.id
      , classes := a.classes ++ classTokens calls
      , attrs := a.attrs ++ attrTokens calls
      , pseudoClasses := a.pseudoClasses ++ pseudoClassTokens calls
      , pseudoElement := setLast (pseudoElementTokens calls) a.pseudoElement } := by
  induction calls with
  | nil =>
    intro a
    simp [absRun, elementTokens, idTokens, classTokens, attrTokens, pseudoClassTokens,
      pseudoElementTokens, setLast, List.filterMap]
  | cons c rest ih =>
    intro a
    cases c <;>
      simp [absRun, absApply, elementTokens, idTokens, classTokens, attrTokens,
        pseudoClassTokens, pseudoElementTokens, List.filterMap_cons, setLast,
        List.foldl_cons, ih]

/-! ## Claim theorems for the selector builder and the rectangle -/

/-- Claim C1: the claim says attr(token) fails with OutOfOrderError whenever
pseudoClass OR pseudoElement is already populated.  The code checks the
misspelt property name `'_pseudo-element'`, which is never an own property,
so a builder whose pseudo-element is set (and whose pseudo-class is not)
ACCEPTS an attr call and appends the bracketed token: the run below performs
`pseudoElement('hover')` then `attr('href')` and ends with no error, with
`_attr` set to `'[href]'`.  This contradicts the ordering the source's own
`myError2` message documents (…attribute, pseudo-class, pseudo-element), so
the code, not the claim, is wrong. -/
theorem C1_attr_after_pseudoElement_accepted :
    runCalls emptySelector [Call.pseudoElement ("hover"), Call.attr ("href")]
      = (⟨none, none, none, some ("[href]"), none, some ("::hover")⟩, none) := by
  decide

/-- Claim C2: for every builder reachable by a successful setter chain,
`stringify` returns element + id + classes + attributes + pseudoClasses +
pseudoElement with no separators, each accepted token carrying its prefix
(`#` for id, `.` per class, `[...]` per attribute, `:` per pseudo-class,
`::` for the pseudo-element) and absent categories contributing `''` —
that is exactly what `absStringify` of the accepted-token record says. -/
theorem C2_stringify_concatenates_categories (calls : List Call) (s : Selector)
    (h : runCalls emptySelector calls = (s, none)) :
    cssSelectorBuilder.stringify s = absStringify (absRun absEmpty calls) := by
  have he : emptySelector = concretize absEmpty := rfl
  rw [he] at h
  rw [runCalls_concretize calls absEmpty s h, stringify_concretize]

/-- Witness for C2 at the spec's example chain
`element('div').id('main').class('a').class('b')`. -/
theorem C2_witness :
    cssSelectorBuilder.stringify
        (runCalls emptySelector
          [Call.element ("div"), Call.id ("main"), Call.«class» ("a"), Call.«class» ("b")]).1
      = "div#main.a.b" := by
  have h := C2_stringify_concatenates_categories
      [Call.element ("div"), Call.id ("main"), Call.«class» ("a"), Call.«class» ("b")]
      (runCalls emptySelector
        [Call.element ("div"), Call.id ("main"), Call.«class» ("a"), Call.«class» ("b")]).1
      (by decide)
  rw [h]
  decide

/-- Claim C3: on any builder whose element, id, or pseudo-element is already
set, calling the same setter again fails with `DuplicateCategoryError`
(the source's `myError`), leaving the state unchanged. -/
theorem C3_duplicate_single_occurrence (s : Selector) (v : String) :
    (s._element.isSome = true →
      applyCall s (Call.element v) = (s, some DuplicateCategoryError)) ∧
    (s._id.isSome = true →
      applyCall s (Call.id v) = (s, some DuplicateCategoryError)) ∧
    (s._pseudoElement.isSome = true →
      applyCall s (Call.pseudoElement v) = (s, some DuplicateCategoryError)) := by
  refine ⟨fun h => ?_, fun h => ?_, fun h => ?_⟩
  · show methodsMap.element s v = (s, some DuplicateCategoryError)
    simp [methodsMap.element, hasOwn_element, h, DuplicateCategoryError]
  · show methodsMap.id s v = (s, some DuplicateCategoryError)
    simp [methodsMap.id, hasOwn_id, h, DuplicateCategoryError]
  · show methodsMap.pseudoElement s v = (s, some DuplicateCategoryError)
    simp [methodsMap.pseudoElement, hasOwn_pseudoElement, h, DuplicateCategoryError]

/-- Witness for C3: calling `id('a')` twice raises `DuplicateCategoryError`. -/
theorem C3_witness :
    applyCall (runCalls emptySelector [Call.id ("a")]).1 (Call.id ("a"))
      = ((runCalls emptySelector [Call.id ("a")]).1, some DuplicateCategoryError) :=
  (C3_duplicate_single_occurrence (runCalls emptySelector [Call.id ("a")]).1 ("a")).2.1
    (by decide)

/-- Counterexample to claim C4 as stated: on the builder built by
`element('div').class('x')` the class category IS populated, yet a further
`element('p')` call fails with `DuplicateCategoryError` (the duplicate check
runs first), not with `OutOfOrderError`. -/
theorem C4_counterexample :
    (runCalls emptySelector [Call.element ("div"), Call.«class» ("x")]).1._class.isSome = true
      ∧ applyCall (runCalls emptySelector [Call.element ("div"), Call.«class» ("x")]).1
          (Call.element ("p"))
        = ((runCalls emptySelector [Call.element ("div"), Call.«class» ("x")]).1,
            some DuplicateCategoryError)
      ∧ DuplicateCategoryError ≠ OutOfOrderError := by
  refine ⟨by decide, by decide, by decide⟩

/-- Claim C4, amended: on every builder whose element is NOT yet set and in
which any of id, class, attribute, pseudo-class or pseudo-element is already
populated, `element(token)` fails with `OutOfOrderError`. -/
theorem C4_element_out_of_order (s : Selector) (v : String)
    (hne : s._element = none)
    (hpop : s._id.isSome = true ∨ s._class.isSome = true ∨ s._attr.isSome = true
      ∨ s._pseudoClass.isSome = true ∨ s._pseudoElement.isSome = true) :
    applyCall s (Call.element v) = (s, some OutOfOrderError) := by
  show methodsMap.element s v = (s, some OutOfOrderError)
  rcases hpop with h | h | h | h | h <;>
    simp [methodsMap.element, checkProps, hasOwn_element, hasOwn_id, hasOwn_class,
      hasOwn_attr, hasOwn_pseudoClass, hasOwn_pseudoElement, hne, h, OutOfOrderError]

/-- Witness for C4: `class('x')` then `element('div')` raises
`OutOfOrderError`. -/
theorem C4_witness :
    applyCall (runCalls emptySelector [Call.«class» ("x")]).1 (Call.element ("div"))
      = ((runCalls emptySelector [Call.«class» ("x")]).1, some OutOfOrderError) :=
  C4_element_out_of_order (runCalls emptySelector [Call.«class» ("x")]).1 ("div")
    (by decide) (by decide)

/-- Claim C5: `combine(left, token, right)` returns a node whose rendering is
`left.stringify() + ' ' + token + ' ' + right.stringify()`; in this pure
embedding the arguments are taken and returned by value, so no existing
builder is mutated.  The second conjunct is the spec's example
`combine(element('div').id('main'), '>', element('span'))`. -/
theorem C5_combine_renders_with_combinator (l r : Renderable) (c : String) :
    Renderable.render (cssSelectorBuilder.combine l c r)
        = Renderable.render l ++ " " ++ c ++ " " ++ Renderable.render r
      ∧ Renderable.render (cssSelectorBuilder.combine
            (Renderable.leaf (runCalls emptySelector [Call.element ("div"), Call.id ("main")]).1)
            (">")
            (Renderable.leaf (runCalls emptySelector [Call.element ("span")]).1))
          = "div#main > span" := by
  constructor
  · rfl
  · decide

/-- Claim C6: whenever a setter call throws (either error), the builder
state it returns is exactly the state it was given: every check runs before
the single field assignment. -/
theorem C6_failing_call_leaves_state_unchanged (s : Selector) (c : Call) (e : BuilderError)
    (h : (applyCall s c).2 = some e) : (applyCall s c).1 = s := by
  cases c with
  | element v =>
    replace h : (methodsMap.element s v).2 = some e := h
    show (methodsMap.element s v).1 = s
    by_cases h1 : hasOwnProperty s ("_element")
    · simp [methodsMap.element, h1]
    · rcases h2 : checkProps s
          ["_id", "_class", "_attr", "_pseudoClass", "_pseudoElement"] with _ | e2
      · simp [methodsMap.element, h1, h2] at h
      · simp [methodsMap.element, h1, h2]
  | id v =>
    replace h : (methodsMap.id s v).2 = some e := h
    show (methodsMap.id s v).1 = s
    by_cases h1 : hasOwnProperty s ("_id")
    · simp [methodsMap.id, h1]
    · rcases h2 : checkProps s ["_class", "_attr", "_pseudoClass", "_pseudoElement"] with _ | e2
      · simp [methodsMap.id, h1, h2] at h
      · simp [methodsMap.id, h1, h2]
  | «class» v =>
    replace h : (methodsMap.«class» s v).2 = some e := h
    show (methodsMap.«class» s v).1 = s
    rcases h2 : checkProps s ["_attr", "_pseudoClass", "_pseudoElement"] with _ | e2
    · simp [methodsMap.«class», h2] at h
    · simp [methodsMap.«class», h2]
  | attr v =>
    replace h : (methodsMap.attr s v).2 = some e := h
    show (methodsMap.attr s v).1 = s
    rcases h2 : checkProps s ["_pseudoClass", "_pseudo-element"] with _ | e2
    · simp [methodsMap.attr, h2] at h
    · simp [methodsMap.attr, h2]
  | pseudoClass v =>
    replace h : (methodsMap.pseudoClass s v).2 = some e := h
    show (methodsMap.pseudoClass s v).1 = s
    rcases h2 : checkProps s ["_pseudoElement"] with _ | e2
    · simp [methodsMap.pseudoClass, h2] at h
    · simp [methodsMap.pseudoClass, h2]
  | pseudoElement v =>
    replace h : (methodsMap.pseudoElement s v).2 = some e := h
    show (methodsMap.pseudoElement s v).1 = s
    by_cases h1 : hasOwnProperty s ("_pseudoElement")
    · simp [methodsMap.pseudoElement, h1]
    · simp [methodsMap.pseudoElement, h1] at h

/-- Witness for C6: the duplicate `id` call throws and the state is
untouched. -/
theorem C6_witness :
    (applyCall (runCalls emptySelector [Call.id ("a")]).1 (Call.id ("b"))).1
      = (runCalls emptySelector [Call.id ("a")]).1 :=
  C6_failing_call_leaves_state_unchanged (runCalls emptySelector [Call.id ("a")]).1
    (Call.id ("b")) BuilderError.myError (by decide)

/-- Claim C7: `Rectangle(width, height)` carries the two fields, and
`getArea` multiplies the record's fields at call time, so after the record's
fields are replaced (the embedding of mutating them) it returns the product
of the new values. -/
theorem C7_rectangle_area_live (w h w2 h2 : Int) (hw : 0 ≤ w) (hh : 0 ≤ h) :
    (Rectangle w h).width = w ∧ (Rectangle w h).height = h
      ∧ (Rectangle w h).getArea = w * h
      ∧ ({ Rectangle w h with width := w2, height := h2 } : RectangleObj).getArea = w2 * h2 :=
  ⟨rfl, rfl, rfl, rfl⟩

/-- Witness for C7 at the source's example `new Rectangle(10, 20)`, then
with the fields overwritten by 3 and 4. -/
theorem C7_witness :
    (Rectangle 10 20).width = 10 ∧ (Rectangle 10 20).height = 20
      ∧ (Rectangle 10 20).getArea = 10 * 20
      ∧ ({ Rectangle 10 20 with width := 3, height := 4 } : RectangleObj).getArea = 3 * 4 :=
  C7_rectangle_area_live 10 20 3 4 (by decide) (by decide)

/-- Claim C10: for any two successful setter chains that accept the same
tokens per category (in the same per-category order), `stringify` renders
the same text: the output groups fragments by category in the fixed order
element, id, class, attribute, pseudo-class, pseudo-element, independently
of the interleaving of the accepted calls. -/
theorem C10_render_order_independent (calls1 calls2 : List Call) (s1 s2 : Selector)
    (h1 : runCalls emptySelector calls1 = (s1, none))
    (h2 : runCalls emptySelector calls2 = (s2, none))
    (he : elementTokens calls1 = elementTokens calls2)
    (hi : idTokens calls1 = idTokens calls2)
    (hc : classTokens calls1 = classTokens calls2)
    (ha : attrTokens calls1 = attrTokens calls2)
    (hp : pseudoClassTokens calls1 = pseudoClassTokens calls2)
    (hq : pseudoElementTokens calls1 = pseudoElementTokens calls2) :
    cssSelectorBuilder.stringify s1 = cssSelectorBuilder.stringify s2 := by
  have e0 : emptySelector = concretize absEmpty := rfl
  rw [e0] at h1 h2
  rw [runCalls_concretize calls1 absEmpty s1 h1, runCalls_concretize calls2 absEmpty s2 h2,
    stringify_concretize, stringify_concretize, absRun_tokens, absRun_tokens, he, hi, hc,
    ha, hp, hq]

/-- Witness for C10: an `attr` call accepted after `pseudoElement` (which
the source accepts, see C1) renders the same as the canonical order and
places the bracketed clause before the `::` fragment. -/
theorem C10_witness :
    cssSelectorBuilder.stringify
        (runCalls emptySelector [Call.pseudoElement ("pe"), Call.attr ("t")]).1
      = cssSelectorBuilder.stringify
          (runCalls emptySelector [Call.attr ("t"), Call.pseudoElement ("pe")]).1
      ∧ cssSelectorBuilder.stringify
          (runCalls emptySelector [Call.pseudoElement ("pe"), Call.attr ("t")]).1
        = "[t]::pe" := by
  constructor
  · exact C10_render_order_independent
      [Call.pseudoElement ("pe"), Call.attr ("t")]
      [Call.attr ("t"), Call.pseudoElement ("pe")]
      (runCalls emptySelector [Call.pseudoElement ("pe"), Call.attr ("t")]).1
      (runCalls emptySelector [Call.attr ("t"), Call.pseudoElement ("pe")]).1
      (by decide) (by decide) (by decide) (by decide) (by decide) (by decide)
      (by decide) (by decide)
  · decide

/-! ## Helper lemmas for the JSON model: decimal digits -/

theorem digitChar_toNat (n : Nat) (h : n < 10) : (digitChar n).toNat = 48 + n := by
  interval_cases n <;> decide

theorem isDigitC_digitChar (n : Nat) (h : n < 10) : isDigitC (digitChar n) = true := by
  interval_cases n <;> decide

theorem natDigitsAux_append (fuel : Nat) : ∀ (n : Nat) (acc : List Char),
    natDigitsAux fuel n acc = natDigitsAux fuel n [] ++ acc := by
  induction fuel with
  | zero => intro n acc; rfl
  | succ f ih =>
    intro n acc
    by_cases hn : n = 0
    · simp [natDigitsAux, hn]
    · simp only [natDigitsAux, if_neg hn]
      rw [ih (n / 10) (digitChar (n % 10) :: acc), ih (n / 10) [digitChar (n % 10)]]
      simp

theorem natDigitsAux_all_digits (fuel : Nat) : ∀ (n : Nat) (acc : List Char),
    (∀ c ∈ acc, isDigitC c = true) → ∀ c ∈ natDigitsAux fuel n acc, isDigitC c = true := by
  induction fuel with
  | zero => intro n acc hacc c hc; exact hacc c hc
  | succ f ih =>
    intro n acc hacc c hc
    by_cases hn : n = 0
    · simp only [natDigitsAux, if_pos hn] at hc
      exact hacc c hc
    · simp only [natDigitsAux, if_neg hn] at hc
      refine ih (n / 10) _ ?_ c hc
      intro d hd
      rcases List.mem_cons.mp hd with h1 | h1
      · rw [h1]
        exact isDigitC_digitChar _ (Nat.mod_lt _ (by omega))
      · exact hacc d h1

theorem natDigitsAux_ne_nil (fuel n : Nat) (hf : n ≤ fuel) (hn : 0 < n) :
    natDigitsAux fuel n [] ≠ [] := by
  cases fuel with
  | zero => omega
  | succ f =>
    simp only [natDigitsAux, if_neg (by omega : ¬ n = 0)]
    rw [natDigitsAux_append]
    simp

theorem natDigits_all_digits (n : Nat) : ∀ c ∈ natDigits n, isDigitC c = true := by
  unfold natDigits
  by_cases hn : n = 0
  · simp only [if_pos hn]
    intro c hc
    simp at hc
    rw [hc]
    decide
  · simp only [if_neg hn]
    exact natDigitsAux_all_digits n n [] (by simp)

theorem natDigits_ne_nil (n : Nat) : natDigits n ≠ [] := by
  unfold natDigits
  by_cases hn : n = 0
  · simp [hn]
  · simp only [if_neg hn]
    exact natDigitsAux_ne_nil n n (Nat.le_refl n) (by omega)

theorem valOfDigits_append_digit (l : List Char) (d : Char) (acc : Nat) :
    valOfDigits (l ++ [d]) acc = (valOfDigits l acc) * 10 + (d.toNat - 48) := by
  simp [valOfDigits, List.foldl_append]

theorem valOfDigits_natDigitsAux (n : Nat) : ∀ (fuel : Nat), n ≤ fuel →
    valOfDigits (natDigitsAux fuel n []) 0 = n := by
  induction n using Nat.strong_induction_on with
  | _ n ih =>
    intro fuel hf
    cases fuel with
    | zero =>
      have h0 : n = 0 := by omega
      subst h0
      rfl
    | succ f =>
      by_cases hn : n = 0
      · subst hn
        simp [natDigitsAux, valOfDigits]
      · simp only [natDigitsAux, if_neg hn]
        rw [natDigitsAux_append, valOfDigits_append_digit,
          ih (n / 10) (by omega) f (by omega),
          digitChar_toNat _ (Nat.mod_lt _ (by omega))]
        omega

theorem valOfDigits_natDigits (n : Nat) : valOfDigits (natDigits n) 0 = n := by
  unfold natDigits
  by_cases hn : n = 0
  · subst hn
    decide
  · simp only [if_neg hn]
    exact valOfDigits_natDigitsAux n n (Nat.le_refl n)

theorem parseDigits_append (l : List Char) : ∀ (rest : List Char) (acc : Nat),
    (∀ c ∈ l, isDigitC c = true) →
    (∀ d, rest.head? = some d → isDigitC d = false) →
    parseDigits (l ++ rest) acc = (valOfDigits l acc, rest) := by
  induction l with
  | nil =>
    intro rest acc _ hrest
    cases rest with
    | nil => rfl
    | cons d r =>
      have hd : isDigitC d = false := hrest d rfl
      simp [parseDigits, hd, valOfDigits]
  | cons c l ih =>
    intro rest acc hl hrest
    have hc : isDigitC c = true := hl c (by simp)
    simp only [List.cons_append, parseDigits, hc, if_true, List.append_eq]
    rw [ih rest _ (fun d hd => hl d (by simp [hd])) hrest]
    rfl

/-! ## Helper lemmas for the JSON model: string escaping -/

theorem hexDigitChar_spec (m : Nat) (h : m < 16) :
    isHexDigitC (hexDigitChar m) = true ∧ hexVal (hexDigitChar m) = m := by
  interval_cases m <;> exact ⟨by decide, by decide⟩

theorem parseStringBody_round (l : List Char) : ∀ (acc rest : List Char),
    parseStringBody acc (escapeList l ++ ('"' :: rest))
      = some (String.mk (acc.reverse ++ l), rest) := by
  induction l with
  | nil =>
    intro acc rest
    simp only [escapeList, List.nil_append]
    rw [parseStringBody.eq_def]
    simp
  | cons c l ih =>
    intro acc rest
    simp only [escapeList, List.append_assoc]
    by_cases h1 : c = '"'
    · subst h1
      rw [show escapeChar '"' = ['\\', '"'] from rfl]
      simp only [List.cons_append, List.nil_append]
      rw [parseStringBody.eq_def]
      simp only []
      simp [ih, List.reverse_cons, List.append_assoc]
    · by_cases h2 : c = '\\'
      · subst h2
        rw [show escapeChar '\\' = ['\\', '\\'] from rfl]
        simp only [List.cons_append, List.nil_append]
        rw [parseStringBody.eq_def]
        simp [ih, List.reverse_cons, List.append_assoc]
      · by_cases h3 : c.toNat = 8
        · rw [show escapeChar c = ['\\', 'b'] by simp [escapeChar, h1, h2, h3]]
          simp only [List.cons_append, List.nil_append]
          rw [parseStringBody.eq_def]
          have hc : Char.ofNat 8 = c := by rw [← h3]; exact Char.ofNat_toNat c
          simp [ih, List.reverse_cons, List.append_assoc]
          rw [hc]
        · by_cases h4 : c.toNat = 12
          · rw [show escapeChar c = ['\\', 'f'] by simp [escapeChar, h1, h2, h3, h4]]
            simp only [List.cons_append, List.nil_append]
            rw [parseStringBody.eq_def]
            have hc : Char.ofNat 12 = c := by rw [← h4]; exact Char.ofNat_toNat c
            simp [ih, List.reverse_cons, List.append_assoc]
            rw [hc]
          · by_cases h5 : c.toNat = 10
            · rw [show escapeChar c = ['\\', 'n'] by simp [escapeChar, h1, h2, h3, h4, h5]]
              simp only [List.cons_append, List.nil_append]
              rw [parseStringBody.eq_def]
              have hc : Char.ofNat 10 = c := by rw [← h5]; exact Char.ofNat_toNat c
              simp [ih, List.reverse_cons, List.append_assoc]
              rw [hc]
            · by_cases h6 : c.toNat = 13
              · rw [show escapeChar c = ['\\', 'r'] by simp [escapeChar, h1, h2, h3, h4, h5, h6]]
                simp only [List.cons_append, List.nil_append]
                rw [parseStringBody.eq_def]
                have hc : Char.ofNat 13 = c := by rw [← h6]; exact Char.ofNat_toNat c
                simp [ih, List.reverse_cons, List.append_assoc]
                rw [hc]
              · by_cases h7 : c.toNat = 9
                · rw [show escapeChar c = ['\\', 't'] by
                      simp [escapeChar, h1, h2, h3, h4, h5, h6, h7]]
                  simp only [List.cons_append, List.nil_append]
                  rw [parseStringBody.eq_def]
                  have hc : Char.ofNat 9 = c := by rw [← h7]; exact Char.ofNat_toNat c
                  simp [ih, List.reverse_cons, List.append_assoc]
                  rw [hc]
                · by_cases h8 : c.toNat < 32
                  · rw [show escapeChar c
                          = ['\\', 'u', '0', '0', hexDigitChar (c.toNat / 16),
                              hexDigitChar (c.toNat % 16)] by
                        simp [escapeChar, h1, h2, h3, h4, h5, h6, h7, h8]]
                    simp only [List.cons_append, List.nil_append]
                    rw [parseStringBody.eq_def]
                    have hx1 := hexDigitChar_spec (c.toNat / 16) (by omega)
                    have hx2 := hexDigitChar_spec (c.toNat % 16) (by omega)
                    have hcode :
                        ((hexVal '0' * 16 + hexVal '0') * 16
                            + hexVal (hexDigitChar (c.toNat / 16))) * 16
                          + hexVal (hexDigitChar (c.toNat % 16)) = c.toNat := by
                      rw [hx1.2, hx2.2, show hexVal '0' = 0 from rfl]
                      omega
                    have hlt : c.toNat < 55296 := by omega
                    simp only [hx1.1, hx2.1, show isHexDigitC '0' = true from by decide]
                    simp [hcode, hlt, ih, Char.ofNat_toNat, List.reverse_cons,
                      List.append_assoc]
                  · rw [show escapeChar c = [c] by
                        simp [escapeChar, h1, h2, h3, h4, h5, h6, h7, h8]]
                    simp only [List.cons_append, List.nil_append]
                    rw [parseStringBody.eq_def]
                    simp [h1, h2, h8, ih, List.reverse_cons, List.append_assoc]

/-! ## Helper lemmas for the JSON model: printed shapes -/

theorem isDigitC_not_marker (c : Char) (h : isDigitC c = true) :
    ¬ c = 'n' ∧ ¬ c = 't' ∧ ¬ c = 'f' ∧ ¬ c = '"' ∧ ¬ c = '[' ∧ ¬ c = '\x7b' ∧ ¬ c = '-' := by
  refine ⟨?_, ?_, ?_, ?_, ?_, ?_, ?_⟩ <;> intro hEq <;> rw [hEq] at h <;>
    exact absurd h (by decide)

theorem printJson_head (v : Json) :
    ∃ c l, printJson v = c :: l ∧ ¬ c = ']' := by
  cases v with
  | null => exact ⟨'n', _, rfl, by decide⟩
  | bool b =>
    cases b
    · exact ⟨'f', _, rfl, by decide⟩
    · exact ⟨'t', _, rfl, by decide⟩
  | num n =>
    show ∃ c l, intChars n = c :: l ∧ ¬ c = ']'
    by_cases hn : n < 0
    · refine ⟨'-', natDigits n.natAbs, ?_, by decide⟩
      simp [intChars, hn]
    · obtain ⟨d, t, hd⟩ := List.exists_cons_of_ne_nil (natDigits_ne_nil n.natAbs)
      have hdig : isDigitC d = true :=
        natDigits_all_digits _ d (by rw [hd]; exact List.mem_cons_self _ _)
      refine ⟨d, t, ?_, ?_⟩
      · simp [intChars, hn, hd]
      · intro hEq
        rw [hEq] at hdig
        exact absurd hdig (by decide)
  | str s => exact ⟨'"', _, rfl, by decide⟩
  | arr xs =>
    cases xs
    · exact ⟨'[', _, rfl, by decide⟩
    · exact ⟨'[', _, rfl, by decide⟩
  | obj fs =>
    cases fs
    · exact ⟨'\x7b', _, rfl, by decide⟩
    · exact ⟨'\x7b', _, rfl, by decide⟩

theorem printJson_length_pos (v : Json) : 1 ≤ (printJson v).length := by
  obtain ⟨c, l, h, _⟩ := printJson_head v
  rw [h]
  simp

theorem delimited_head_not_digit (rest : List Char) (h : delimited rest = true) :
    ∀ d, rest.head? = some d → isDigitC d = false := by
  intro d hd
  cases rest with
  | nil => simp at hd
  | cons c r =>
    have hc : d = c := by simpa using hd.symm
    subst hc
    simp only [delimited, Bool.or_eq_true, decide_eq_true_eq] at h
    rcases h with (h | h) | h <;> rw [h] <;> decide

theorem parseStringBody_key (k : String) (R : List Char) :
    parseStringBody [] (escapeList k.data ++ ('"' :: R)) = some (k, R) := by
  have h := parseStringBody_round k.data [] R
  simp only [List.reverse_nil, List.nil_append] at h
  exact h

theorem parseV_print (fuel : Nat) : ∀ (v : Json) (rest : List Char),
    (printJson v).length + rest.length < fuel → delimited rest = true →
    parseV fuel (printJson v ++ rest) = some (v, rest) := by
  induction fuel with
  | zero =>
    intro v rest h _
    omega
  | succ fuel ih =>
    intro v rest hlen hdel
    cases v with
    | null =>
      rw [show printJson Json.null = ['n', 'u', 'l', 'l'] from rfl, parseV.eq_def]
      simp [expectNull]
    | bool b =>
      cases b
      · rw [show printJson (Json.bool false) = ['f', 'a', 'l', 's', 'e'] from rfl,
          parseV.eq_def]
        simp [expectFalse]
      · rw [show printJson (Json.bool true) = ['t', 'r', 'u', 'e'] from rfl, parseV.eq_def]
        simp [expectTrue]
    | num n =>
      by_cases hn : n < 0
      · rw [show printJson (Json.num n) = '-' :: natDigits n.natAbs by
            simp [printJson, intChars, hn]]
        obtain ⟨d, t, hd⟩ := List.exists_cons_of_ne_nil (natDigits_ne_nil n.natAbs)
        have hdig : isDigitC d = true :=
          natDigits_all_digits _ d (by rw [hd]; exact List.mem_cons_self _ _)
        have hval : valOfDigits (d :: t) 0 = n.natAbs := by
          rw [← hd]; exact valOfDigits_natDigits _
        have hpd : parseDigits ((d :: t) ++ rest) 0 = (valOfDigits (d :: t) 0, rest) :=
          parseDigits_append (d :: t) rest 0
            (fun c hc => natDigits_all_digits _ c (by rw [hd]; exact hc))
            (delimited_head_not_digit rest hdel)
        have hneg : -((n.natAbs : Nat) : Int) = n := by omega
        rw [hd, parseV.eq_def]
        simp only [List.cons_append] at hpd ⊢
        simp [parseNegNum, hdig, hpd, hval, hneg, abs_of_nonpos (le_of_lt hn)]
      · rw [show printJson (Json.num n) = natDigits n.natAbs by simp [printJson, intChars, hn]]
        obtain ⟨d, t, hd⟩ := List.exists_cons_of_ne_nil (natDigits_ne_nil n.natAbs)
        have hdig : isDigitC d = true :=
          natDigits_all_digits _ d (by rw [hd]; exact List.mem_cons_self _ _)
        have hM := isDigitC_not_marker d hdig
        have hval : valOfDigits (d :: t) 0 = n.natAbs := by
          rw [← hd]; exact valOfDigits_natDigits _
        have hpd : parseDigits ((d :: t) ++ rest) 0 = (valOfDigits (d :: t) 0, rest) :=
          parseDigits_append (d :: t) rest 0
            (fun c hc => natDigits_all_digits _ c (by rw [hd]; exact hc))
            (delimited_head_not_digit rest hdel)
        have hcast : ((valOfDigits (d :: t) 0 : Nat) : Int) = n := by rw [hval]; omega
        rw [hd, parseV.eq_def]
        simp only [List.cons_append] at hpd ⊢
        simp [parsePosNum, hM.1, hM.2.1, hM.2.2.1, hM.2.2.2.1, hM.2.2.2.2.1,
          hM.2.2.2.2.2.1, hM.2.2.2.2.2.2, hdig, hpd, hcast]
    | str s =>
      rw [show printJson (Json.str s) ++ rest = '"' :: (escapeList s.data ++ ('"' :: rest)) by
          simp [printJson, quoteChars, List.cons_append, List.append_assoc]]
      rw [parseV.eq_def]
      simp [parseStrAt, parseStringBody_key]
    | arr xs =>
      cases xs with
      | nil =>
        rw [show printJson (Json.arr []) = ['[', ']'] from rfl, parseV.eq_def]
        simp [parseArrTail]
      | cons x xs =>
        obtain ⟨c, t, hpx, hc⟩ := printJson_head x
        cases xs with
        | nil =>
          have hsub : parseV fuel (printJson x ++ (']' :: rest)) = some (x, ']' :: rest) := by
            apply ih x (']' :: rest) ?_ (by simp [delimited])
            simp only [printJson, printElems, List.append_nil, List.length_append,
              List.length_cons] at hlen ⊢
            omega
          simp only [printJson, printElems, List.append_nil, List.cons_append,
            List.append_assoc, List.singleton_append]
          rw [parseV.eq_def, hpx]
          rw [hpx] at hsub
          simp only [List.cons_append] at hsub ⊢
          simp [parseArrTail, hc, hsub]
        | cons x2 xs2 =>
          have hsub1 : parseV fuel
              (printJson x ++ (',' :: (printJson x2 ++ (printElems xs2 ++ (']' :: rest)))))
              = some (x, ',' :: (printJson x2 ++ (printElems xs2 ++ (']' :: rest)))) := by
            apply ih x _ ?_ (by simp [delimited])
            simp only [printJson, printElems, List.length_append, List.length_cons,
              List.cons_append, List.append_assoc, List.singleton_append] at hlen ⊢
            omega
          have hsub2 : parseV fuel (printJson (Json.arr (x2 :: xs2)) ++ rest)
              = some (Json.arr (x2 :: xs2), rest) := by
            apply ih _ _ ?_ hdel
            have h1 := printJson_length_pos x
            simp only [printJson, printElems, List.length_append, List.length_cons,
              List.cons_append, List.append_assoc, List.singleton_append] at hlen ⊢
            omega
          have hshape2 : printJson (Json.arr (x2 :: xs2)) ++ rest
              = '[' :: (printJson x2 ++ (printElems xs2 ++ (']' :: rest))) := by
            simp [printJson, List.cons_append, List.append_assoc]
          rw [hshape2] at hsub2
          simp only [printJson, printElems, List.cons_append, List.append_assoc,
            List.singleton_append]
          rw [parseV.eq_def, hpx]
          rw [hpx] at hsub1
          simp only [List.cons_append] at hsub1 ⊢
          simp [parseArrTail, hc, hsub1, hsub2]
    | obj fs =>
      cases fs with
      | nil =>
        rw [show printJson (Json.obj []) = ['\x7b', '\x7d'] from rfl, parseV.eq_def]
        simp [parseObjTail]
      | cons f fs =>
        obtain ⟨k, w⟩ := f
        cases fs with
        | nil =>
          have hsubw : parseV fuel (printJson w ++ ('\x7d' :: rest))
              = some (w, '\x7d' :: rest) := by
            apply ih w ('\x7d' :: rest) ?_ (by simp [delimited])
            simp only [printJson, printField, printFields, quoteChars, List.append_nil,
              List.length_append, List.length_cons, List.cons_append,
              List.append_assoc] at hlen ⊢
            omega
          have hsk := parseStringBody_key k (':' :: (printJson w ++ ('\x7d' :: rest)))
          simp only [printJson, printField, printFields, quoteChars, List.append_nil,
            List.cons_append, List.append_assoc, List.singleton_append]
          rw [parseV.eq_def]
          simp [parseObjTail, hsk, hsubw]
        | cons f2 fs2 =>
          obtain ⟨k2, w2⟩ := f2
          have hsubw : parseV fuel
              (printJson w ++ (',' :: ('"' :: (escapeList k2.data
                ++ ('"' :: (':' :: (printJson w2
                  ++ (printFields fs2 ++ ('\x7d' :: rest)))))))))
              = some (w, ',' :: ('"' :: (escapeList k2.data
                ++ ('"' :: (':' :: (printJson w2
                  ++ (printFields fs2 ++ ('\x7d' :: rest)))))))) := by
            apply ih w _ ?_ (by simp [delimited])
            simp only [printJson, printField, printFields, quoteChars, List.length_append,
              List.length_cons, List.cons_append, List.append_assoc,
              List.singleton_append] at hlen ⊢
            omega
          have hsub2 : parseV fuel (printJson (Json.obj ((k2, w2) :: fs2)) ++ rest)
              = some (Json.obj ((k2, w2) :: fs2), rest) := by
            apply ih _ _ ?_ hdel
            have h1 := printJson_length_pos w
            simp only [printJson, printField, printFields, quoteChars, List.length_append,
              List.length_cons, List.cons_append, List.append_assoc,
              List.singleton_append] at hlen ⊢
            omega
          have hshape2 : printJson (Json.obj ((k2, w2) :: fs2)) ++ rest
              = '\x7b' :: ('"' :: (escapeList k2.data
                ++ ('"' :: (':' :: (printJson w2
                  ++ (printFields fs2 ++ ('\x7d' :: rest))))))) := by
            simp [printJson, printField, quoteChars, List.cons_append, List.append_assoc]
          rw [hshape2] at hsub2
          have hsk := parseStringBody_key k
            (':' :: (printJson w ++ (',' :: ('"' :: (escapeList k2.data
              ++ ('"' :: (':' :: (printJson w2
                ++ (printFields fs2 ++ ('\x7d' :: rest))))))))))
          simp only [printJson, printField, printFields, quoteChars, List.cons_append,
            List.append_assoc, List.singleton_append]
          rw [parseV.eq_def]
          simp [parseObjTail, hsk, hsubw, hsub2]

theorem parseJson_getJSON (x : Json) : parseJson (getJSON x) = some x := by
  unfold parseJson getJSON
  have h := parseV_print ((printJson x).length + 1) x [] (by simp) rfl
  simp only [List.append_nil] at h
  rw [show (String.mk (printJson x)).data = printJson x from rfl]
  rw [h]

/-- Claim C8: encoding a JSON-representable value with `getJSON` (the
source's `JSON.stringify` passthrough) and parsing the text back yields the
same value.  The well-formedness hypothesis states that the value is a real
JavaScript value: no object node carries a duplicate key. -/
theorem C8_encode_parse_roundtrip (x : Json) (hwf : Json.wf x = true) :
    parseJson (getJSON x) = some x :=
  parseJson_getJSON x

/-- Witness for C8 on a nested object exercising numbers (both signs),
strings with an escape, booleans, null, arrays and objects. -/
theorem C8_witness :
    Json.wf (Json.obj [("width", Json.num 10),
        ("tags", Json.arr [Json.str ("a\nb"), Json.bool true, Json.null]),
        ("delta", Json.num (-3))]) = true
      ∧ parseJson (getJSON (Json.obj [("width", Json.num 10),
          ("tags", Json.arr [Json.str ("a\nb"), Json.bool true, Json.null]),
          ("delta", Json.num (-3))]))
        = some (Json.obj [("width", Json.num 10),
            ("tags", Json.arr [Json.str ("a\nb"), Json.bool true, Json.null]),
            ("delta", Json.num (-3))]) :=
  ⟨rfl, C8_encode_parse_roundtrip (Json.obj [("width", Json.num 10),
      ("tags", Json.arr [Json.str ("a\nb"), Json.bool true, Json.null]),
      ("delta", Json.num (-3))]) rfl⟩

/-- Claim C9: `fromJSON(T, getJSON(X))` for an object value `X` returns an
object whose own data fields are exactly `X`'s fields and whose prototype —
the capability set supplying the methods — is exactly `T`. -/
theorem C9_fromJSON_installs_fields (Proto : Type) (T : Proto)
    (fields : List (String × Json)) (hwf : Json.wf (Json.obj fields) = true) :
    fromJSON Proto T (getJSON (Json.obj fields))
      = some { proto := T, fields := fields } := by
  unfold fromJSON
  rw [parseJson_getJSON]

/-- Witness for C9 mirroring the source's example
`fromJSON(Circle.prototype, '...radius...')`. -/
theorem C9_witness :
    fromJSON String ("circleProto") (getJSON (Json.obj [("radius", Json.num 10)]))
      = some { proto := "circleProto", fields := [("radius", Json.num 10)] } :=
  C9_fromJSON_installs_fields String ("circleProto") [("radius", Json.num 10)] rfl
